import Mathlib

/-!
# Verification of the highz-temperature-db ingestion core

Shallow embedding of `src/scripts/utils.py` and `src/scripts/ingest_ibutton_csv.py`.

Python strings are modelled as `List Char` (ASCII semantics for the case and
whitespace operations the code uses).  Machine floats stored in the `value_c`
column are modelled as exact decimal mantissa/exponent pairs: binary rounding
is not observable by any property proved here, which only depends on whether
`float(s)` accepts the string `s`.

`datetime` objects are modelled by their broken-down fields plus the epoch
encoding `toEpoch` (proleptic Gregorian calendar, exactly `datetime.timestamp`
for UTC-aware values).  `zoneinfo.ZoneInfo` is modelled as a transition table
together with the PEP 495 local-time disambiguation rule (`fold`), which is the
documented contract the source relies on.
-/

set_option autoImplicit false

namespace HighzTempDb

/-! ## Python string primitives -/

/-- Python `str` values, as lists of characters. -/
abbrev PyStr := List Char

/-- Coerce a Lean string literal into the `PyStr` model. -/
def pys (s : String) : PyStr := s.data

def isPyDigit (c : Char) : Bool := '0' ≤ c && c ≤ '9'

def digitVal (c : Char) : Nat := c.toNat - 48

/-- The ASCII whitespace characters recognised by `str.strip` / `\s`. -/
def isPySpace (c : Char) : Bool :=
  c = ' ' || c = '\t' || c = '\n' || c = '\r' || c = Char.ofNat 11 || c = Char.ofNat 12

/-- Python `str.strip()` (ASCII whitespace). -/
def pyStrip (s : PyStr) : PyStr :=
  ((s.dropWhile isPySpace).reverse.dropWhile isPySpace).reverse

def pyLowerChar (c : Char) : Char :=
  if 'A' ≤ c && c ≤ 'Z' then Char.ofNat (c.toNat + 32) else c

/-- Python `str.lower()` (ASCII range). -/
def pyLower (s : PyStr) : PyStr := s.map pyLowerChar

/-- Python `str.rstrip(":")`: drop every trailing colon. -/
def pyRstripColon (s : PyStr) : PyStr :=
  (s.reverse.dropWhile (· = ':')).reverse

/-- Index of the first occurrence of `sub` in `s` (Python `str.find`), if any. -/
def firstIdxOfSub : PyStr → PyStr → Option Nat
  | [], sub => if sub.isEmpty then some 0 else none
  | s@(_ :: cs), sub =>
    if sub.isPrefixOf s then some 0 else (firstIdxOfSub cs sub).map (· + 1)

/-- Python substring membership `sub in s`. -/
def pyContainsSub (s sub : PyStr) : Bool := (firstIdxOfSub s sub).isSome

/-- Python `s.split(sep)[0]`: the text preceding the first occurrence of `sep`,
or all of `s` when `sep` does not occur. -/
def pySplitHead (s sep : PyStr) : PyStr :=
  match firstIdxOfSub s sep with
  | some i => s.take i
  | none => s

/-- Python `s.split(c)` for a single-character separator. -/
def pySplitChar : PyStr → Char → List PyStr
  | [], _ => [[]]
  | c :: rest, sep =>
    let r := pySplitChar rest sep
    if c = sep then [] :: r
    else
      match r with
      | [] => [[c]]
      | h :: t => (c :: h) :: t

/-- Python `s.split(c, 1)`: split on the first occurrence only. -/
def pySplitCharOnce : PyStr → Char → List PyStr
  | [], _ => [[]]
  | c :: rest, sep =>
    if c = sep then [[], rest]
    else
      match pySplitCharOnce rest sep with
      | [] => [[c]]
      | h :: t => (c :: h) :: t

/-- Digit run continuation with PEP 515 underscore grouping
(an underscore must sit between two digits). -/
def digitsUSAux : Nat → List Char → Option Nat
  | acc, [] => some acc
  | acc, '_' :: d :: rest =>
    if isPyDigit d then digitsUSAux (acc * 10 + digitVal d) rest else none
  | acc, d :: rest =>
    if isPyDigit d then digitsUSAux (acc * 10 + digitVal d) rest else none

def pyIntCore : List Char → Option Nat
  | [] => none
  | d :: rest => if isPyDigit d then digitsUSAux (digitVal d) rest else none

/-- Python `int(str)`: surrounding whitespace, optional sign, ASCII digits with
underscore grouping. -/
def pyInt (s : PyStr) : Option Int :=
  match pyStrip s with
  | '+' :: r => (pyIntCore r).map (fun n => (n : Int))
  | '-' :: r => (pyIntCore r).map (fun n => -(n : Int))
  | r => (pyIntCore r).map (fun n => (n : Int))

/-! ## Python `float(str)` -/

/-- Values producible by Python `float(str)`.  A finite value is kept exact as
a decimal `m · 10 ^ e`; the rounding to binary64 done by `float` is not
observable by any property proved here. -/
inductive PyFloat where
  | num (m : Int) (e : Int)
  | inf
  | ninf
  | nan
  deriving DecidableEq, Repr

/-- Consume a digit run (underscore grouping allowed); returns the value, the
number of digits consumed, and the rest.  Stops before a trailing underscore. -/
def digitsUSCount : Nat → Nat → List Char → Nat × Nat × List Char
  | acc, k, '_' :: d :: rest =>
    if isPyDigit d then digitsUSCount (acc * 10 + digitVal d) (k + 1) rest
    else (acc, k, '_' :: d :: rest)
  | acc, k, d :: rest =>
    if isPyDigit d then digitsUSCount (acc * 10 + digitVal d) (k + 1) rest
    else (acc, k, d :: rest)
  | acc, k, [] => (acc, k, [])

/-- A digit group must start with a digit. -/
def digitGroup : List Char → Option (Nat × Nat × List Char)
  | d :: rest => if isPyDigit d then some (digitsUSCount (digitVal d) 1 rest) else none
  | [] => none

/-- Optional exponent part; the whole remainder must be consumed. -/
def parseExp : List Char → Option Int
  | [] => some 0
  | c :: rest =>
    if c = 'e' || c = 'E' then
      match rest with
      | '+' :: r =>
        match digitGroup r with
        | some (v, _, []) => some (v : Int)
        | _ => none
      | '-' :: r =>
        match digitGroup r with
        | some (v, _, []) => some (-(v : Int))
        | _ => none
      | r =>
        match digitGroup r with
        | some (v, _, []) => some (v : Int)
        | _ => none
    else none

/-- Unsigned float body: `digits [. [digits]] [exp]` or `. digits [exp]`.
The result `(m, e)` denotes `m · 10 ^ e` exactly. -/
def pyFloatBody (s : List Char) : Option (Nat × Int) :=
  match digitGroup s with
  | some (ip, _, rest) =>
    match rest with
    | '.' :: rest2 =>
      match digitGroup rest2 with
      | some (fp, k, rest3) =>
        (parseExp rest3).map fun e => (ip * 10 ^ k + fp, e - (k : Int))
      | none => (parseExp rest2).map fun e => (ip, e)
    | _ => (parseExp rest).map fun e => (ip, e)
  | none =>
    match s with
    | '.' :: rest2 =>
      match digitGroup rest2 with
      | some (fp, k, rest3) =>
        (parseExp rest3).map fun e => (fp, e - (k : Int))
      | _ => none
    | _ => none

def pyFloatCore (u : List Char) (neg : Bool) : Option PyFloat :=
  let l := pyLower u
  if l = pys "inf" || l = pys "infinity" then some (if neg then .ninf else .inf)
  else if l = pys "nan" then some .nan
  else (pyFloatBody u).map fun p => .num (if neg then -(p.1 : Int) else (p.1 : Int)) p.2

/-- Python `float(str)` acceptance and (exact-rational) value. -/
def pyFloat (s : PyStr) : Option PyFloat :=
  match pyStrip s with
  | '+' :: r => pyFloatCore r false
  | '-' :: r => pyFloatCore r true
  | r => pyFloatCore r false

/-! ## Naive datetimes and the epoch encoding -/

/-- A naive `datetime.datetime` (whole seconds; the source formats carry no
sub-second precision). -/
structure DateTime where
  year : Nat
  month : Nat
  day : Nat
  hour : Nat
  minute : Nat
  second : Nat
  deriving DecidableEq, Repr

def isLeap (y : Nat) : Bool := y % 4 = 0 && (y % 100 ≠ 0 || y % 400 = 0)

def daysInMonth (y m : Nat) : Nat :=
  match m with
  | 1 => 31
  | 2 => if isLeap y then 29 else 28
  | 3 => 31
  | 4 => 30
  | 5 => 31
  | 6 => 30
  | 7 => 31
  | 8 => 31
  | 9 => 30
  | 10 => 31
  | 11 => 30
  | 12 => 31
  | _ => 0

def daysBeforeMonth (y m : Nat) : Nat :=
  (match m with
   | 1 => 0
   | 2 => 31
   | 3 => 59
   | 4 => 90
   | 5 => 120
   | 6 => 151
   | 7 => 181
   | 8 => 212
   | 9 => 243
   | 10 => 273
   | 11 => 304
   | 12 => 334
   | _ => 0)
  + (if 3 ≤ m && isLeap y then 1 else 0)

def leapsBefore (n : Nat) : Nat := n / 4 - n / 100 + n / 400

/-- Proleptic Gregorian ordinal, `date.toordinal` (0001-01-01 ↦ 1). -/
def toOrdinal (y m d : Nat) : Nat :=
  365 * (y - 1) + leapsBefore (y - 1) + daysBeforeMonth y m + d

/-- Epoch encoding `datetime.replace(tzinfo=utc).timestamp()` for a naive datetime:
seconds since 1970-01-01T00:00:00Z. -/
def toEpoch (dt : DateTime) : Int :=
  ((toOrdinal dt.year dt.month dt.day : Int) - 719163) * 86400
    + dt.hour * 3600 + dt.minute * 60 + dt.second

/-- The range check done by the `datetime` constructor (plus the `second ≤ 59`
check that rejects the leap seconds the `%S` pattern can match). -/
def validDate (dt : DateTime) : Bool :=
  1 ≤ dt.year && dt.year ≤ 9999 && 1 ≤ dt.month && dt.month ≤ 12 &&
  1 ≤ dt.day && dt.day ≤ daysInMonth dt.year dt.month &&
  dt.hour ≤ 23 && dt.minute ≤ 59 && dt.second ≤ 59

def minEpoch : Int := toEpoch ⟨1, 1, 1, 0, 0, 0⟩

def maxEpoch : Int := toEpoch ⟨9999, 12, 31, 23, 59, 59⟩

/-! ## `datetime.strptime` over the four formats of `local_to_utc`

Each `%`-directive is matched by the character class `_strptime.TimeRE` uses.
In all four formats every pair of adjacent directives is separated by a literal
or a whitespace run, which no digit can match, so the ordered-alternation
regexes below can commit to their first matching branch without changing which
strings are accepted. -/

inductive Directive where
  | dMonth
  | dDay
  | dYear2
  | dYear4
  | dHour24
  | dHour12
  | dMinute
  | dSecond
  | dAmPm
  | dLit (c : Char)
  | dWs
  deriving DecidableEq, Repr

/-- Directive `%m` and `%I`: `1[0-2]|0[1-9]|[1-9]`. -/
def matchNum1to12 : List Char → Option (Nat × List Char)
  | '1' :: c :: rest =>
    if '0' ≤ c && c ≤ '2' then some (10 + digitVal c, rest) else some (1, c :: rest)
  | '0' :: c :: rest =>
    if '1' ≤ c && c ≤ '9' then some (digitVal c, rest) else none
  | c :: rest => if '1' ≤ c && c ≤ '9' then some (digitVal c, rest) else none
  | [] => none

/-- Directive `%d`: `3[01]|[12]\d|0[1-9]|[1-9]`. -/
def matchDay : List Char → Option (Nat × List Char)
  | '3' :: c :: rest =>
    if c = '0' || c = '1' then some (30 + digitVal c, rest) else some (3, c :: rest)
  | '1' :: c :: rest =>
    if isPyDigit c then some (10 + digitVal c, rest) else some (1, c :: rest)
  | '2' :: c :: rest =>
    if isPyDigit c then some (20 + digitVal c, rest) else some (2, c :: rest)
  | '0' :: c :: rest =>
    if '1' ≤ c && c ≤ '9' then some (digitVal c, rest) else none
  | c :: rest => if '1' ≤ c && c ≤ '9' then some (digitVal c, rest) else none
  | [] => none

/-- Directive `%y`: exactly two digits. -/
def matchYear2 : List Char → Option (Nat × List Char)
  | a :: b :: rest =>
    if isPyDigit a && isPyDigit b then some (10 * digitVal a + digitVal b, rest) else none
  | _ => none

/-- Directive `%Y`: exactly four digits. -/
def matchYear4 : List Char → Option (Nat × List Char)
  | a :: b :: c :: d :: rest =>
    if isPyDigit a && isPyDigit b && isPyDigit c && isPyDigit d then
      some (1000 * digitVal a + 100 * digitVal b + 10 * digitVal c + digitVal d, rest)
    else none
  | _ => none

/-- Directive `%H`: `2[0-3]|[0-1]\d|\d`. -/
def matchHour24 : List Char → Option (Nat × List Char)
  | '2' :: c :: rest =>
    if '0' ≤ c && c ≤ '3' then some (20 + digitVal c, rest) else some (2, c :: rest)
  | '0' :: c :: rest =>
    if isPyDigit c then some (digitVal c, rest) else some (0, c :: rest)
  | '1' :: c :: rest =>
    if isPyDigit c then some (10 + digitVal c, rest) else some (1, c :: rest)
  | c :: rest => if isPyDigit c then some (digitVal c, rest) else none
  | [] => none

/-- Directive `%M`: `[0-5]\d|\d`. -/
def matchMinute : List Char → Option (Nat × List Char)
  | a :: b :: rest =>
    if '0' ≤ a && a ≤ '5' && isPyDigit b then some (10 * digitVal a + digitVal b, rest)
    else if isPyDigit a then some (digitVal a, b :: rest)
    else none
  | [a] => if isPyDigit a then some (digitVal a, []) else none
  | [] => none

/-- Directive `%S`: `6[0-1]|[0-5]\d|\d`. -/
def matchSecond : List Char → Option (Nat × List Char)
  | '6' :: c :: rest =>
    if c = '0' || c = '1' then some (60 + digitVal c, rest) else some (6, c :: rest)
  | a :: b :: rest =>
    if '0' ≤ a && a ≤ '5' && isPyDigit b then some (10 * digitVal a + digitVal b, rest)
    else if isPyDigit a then some (digitVal a, b :: rest)
    else none
  | [a] => if isPyDigit a then some (digitVal a, []) else none
  | [] => none

/-- Directive `%p` under `re.IGNORECASE`: `AM` or `PM`; `true` means PM. -/
def matchAmPm : List Char → Option (Bool × List Char)
  | a :: m :: rest =>
    if (a = 'a' || a = 'A') && (m = 'm' || m = 'M') then some (false, rest)
    else if (a = 'p' || a = 'P') && (m = 'm' || m = 'M') then some (true, rest)
    else none
  | _ => none

/-- Whitespace in a `strptime` format matches `\s+`. -/
def matchWs : List Char → Option (List Char)
  | c :: rest => if isPySpace c then some (rest.dropWhile isPySpace) else none
  | [] => none

/-- Captured groups of a `strptime` run (fields any of the four formats set). -/
structure RawFields where
  y2 : Option Nat := none
  y4 : Option Nat := none
  month : Option Nat := none
  day : Option Nat := none
  h24 : Option Nat := none
  h12 : Option Nat := none
  minute : Option Nat := none
  second : Option Nat := none
  pm : Option Bool := none
  deriving DecidableEq, Repr

def runFormat : List Directive → RawFields → List Char → Option (RawFields × List Char)
  | [], f, s => some (f, s)
  | .dMonth :: ds, f, s =>
    match matchNum1to12 s with
    | some (v, r) => runFormat ds { f with month := some v } r
    | none => none
  | .dDay :: ds, f, s =>
    match matchDay s with
    | some (v, r) => runFormat ds { f with day := some v } r
    | none => none
  | .dYear2 :: ds, f, s =>
    match matchYear2 s with
    | some (v, r) => runFormat ds { f with y2 := some v } r
    | none => none
  | .dYear4 :: ds, f, s =>
    match matchYear4 s with
    | some (v, r) => runFormat ds { f with y4 := some v } r
    | none => none
  | .dHour24 :: ds, f, s =>
    match matchHour24 s with
    | some (v, r) => runFormat ds { f with h24 := some v } r
    | none => none
  | .dHour12 :: ds, f, s =>
    match matchNum1to12 s with
    | some (v, r) => runFormat ds { f with h12 := some v } r
    | none => none
  | .dMinute :: ds, f, s =>
    match matchMinute s with
    | some (v, r) => runFormat ds { f with minute := some v } r
    | none => none
  | .dSecond :: ds, f, s =>
    match matchSecond s with
    | some (v, r) => runFormat ds { f with second := some v } r
    | none => none
  | .dAmPm :: ds, f, s =>
    match matchAmPm s with
    | some (v, r) => runFormat ds { f with pm := some v } r
    | none => none
  | .dLit c :: ds, f, s =>
    match s with
    | c' :: r => if c' = c then runFormat ds f r else none
    | [] => none
  | .dWs :: ds, f, s =>
    match matchWs s with
    | some r => runFormat ds f r
    | none => none

/-- Post-match combination of `_strptime`: the `%y` pivot (`≤ 68` → 2000s), and the
12-hour/AM-PM to 24-hour conversion. -/
def combineFields (f : RawFields) : DateTime :=
  let year :=
    match f.y4 with
    | some y => y
    | none =>
      match f.y2 with
      | some y => if y ≤ 68 then 2000 + y else 1900 + y
      | none => 1900
  let hour :=
    match f.h24 with
    | some h => h
    | none =>
      match f.h12 with
      | some h =>
        match f.pm with
        | some true => if h = 12 then 12 else h + 12
        | _ => if h = 12 then 0 else h
      | none => 0
  { year := year, month := f.month.getD 1, day := f.day.getD 1,
    hour := hour, minute := f.minute.getD 0, second := f.second.getD 0 }

/-- Model of `datetime.strptime(s, fmt)`: anchored match, no unconverted data allowed,
then the constructor's validity check. -/
def strptimeF (fmt : List Directive) (s : PyStr) : Option DateTime :=
  match runFormat fmt {} s with
  | some (f, []) =>
    let dt := combineFields f
    if validDate dt then some dt else none
  | _ => none

/-- Format `"%m/%d/%y %I:%M:%S %p"`. -/
def fmtMDY2Ampm : List Directive :=
  [.dMonth, .dLit '/', .dDay, .dLit '/', .dYear2, .dWs,
   .dHour12, .dLit ':', .dMinute, .dLit ':', .dSecond, .dWs, .dAmPm]

/-- Format `"%m/%d/%Y %I:%M:%S %p"`. -/
def fmtMDY4Ampm : List Directive :=
  [.dMonth, .dLit '/', .dDay, .dLit '/', .dYear4, .dWs,
   .dHour12, .dLit ':', .dMinute, .dLit ':', .dSecond, .dWs, .dAmPm]

/-- Format `"%Y-%m-%d %H:%M:%S"`. -/
def fmtISO : List Directive :=
  [.dYear4, .dLit '-', .dMonth, .dLit '-', .dDay, .dWs,
   .dHour24, .dLit ':', .dMinute, .dLit ':', .dSecond]

/-- Format `"%m/%d/%y %H:%M:%S"`. -/
def fmtMDY2H24 : List Directive :=
  [.dMonth, .dLit '/', .dDay, .dLit '/', .dYear2, .dWs,
   .dHour24, .dLit ':', .dMinute, .dLit ':', .dSecond]

/-- The `formats` list of `local_to_utc`, in source order. -/
def timestampFormats : List (List Directive) :=
  [fmtMDY2Ampm, fmtMDY4Ampm, fmtISO, fmtMDY2H24]

/-- The parse loop of `local_to_utc`: first format that succeeds wins. -/
def tryFormats : List (List Directive) → PyStr → Option DateTime
  | [], _ => none
  | f :: fs, s =>
    match strptimeF f s with
    | some dt => some dt
    | none => tryFormats fs s

/-! ## `zoneinfo.ZoneInfo` and PEP 495 fold resolution -/

/-- A time zone as a transition table: the offset before any transition, and a
UTC-sorted list of `(transition instant, offset in force from that instant)`,
all in seconds. -/
structure Zone where
  initOffset : Int
  transitions : List (Int × Int)
  deriving DecidableEq, Repr

/-- Offset in force at a UTC instant. -/
def offsetAtUtcAux : Int → List (Int × Int) → Int → Int
  | cur, [], _ => cur
  | cur, (u, o) :: rest, t => if t < u then cur else offsetAtUtcAux o rest t

def offsetAtUtc (z : Zone) (t : Int) : Int :=
  offsetAtUtcAux z.initOffset z.transitions t

/-- PEP 495 `utcoffset` for a naive local instant `L` (epoch encoding of the
wall-clock fields).  Each transition from offset `p` to offset `o` at UTC
instant `u` owns the half-open local interval starting at `u + min p o`
(`fold = 1`) or `u + max p o` (`fold = 0`); `bisect_right` puts a local time
equal to the boundary on the post-transition side. -/
def offsetAtLocalAux : Int → List (Int × Int) → Bool → Int → Int
  | cur, [], _, _ => cur
  | cur, (u, o) :: rest, fold, L =>
    if L < u + (if fold then min cur o else max cur o) then cur
    else offsetAtLocalAux o rest fold L

def offsetAtLocal (z : Zone) (fold : Bool) (L : Int) : Int :=
  offsetAtLocalAux z.initOffset z.transitions fold L

/-! ## `local_to_utc` -/

deriving instance DecidableEq for Except

inductive TimeErr where
  /-- Error `ValueError: Could not parse timestamp`. -/
  | parseError
  /-- malformed fixed offset (`int()` / unpacking failure) -/
  | offsetError
  /-- unknown IANA key (`ZoneInfoNotFoundError`) -/
  | zoneError
  /-- Error raised when `dt - offset` leaves the range `datetime` supports. -/
  | rangeError
  deriving DecidableEq, Repr

/-- Python truthiness of the optional `fixed_offset` argument. -/
def truthyOpt : Option PyStr → Bool
  | none => false
  | some s => !s.isEmpty

/-- Offset parsing: `sign = 1 if fixed_offset[0] == '+' else -1;`
`hours, minutes = map(int, fixed_offset[1:].split(':'))`. -/
def parseFixedOffset (s : PyStr) : Option Int :=
  match s with
  | [] => none
  | c :: tail =>
    let sign : Int := if c = '+' then 1 else -1
    match pySplitChar tail ':' with
    | [hs, ms] =>
      match pyInt hs, pyInt ms with
      | some h, some m => some (sign * h * 3600 + sign * m * 60)
      | _, _ => none
    | _ => none

/-- Model of `utils.local_to_utc`.  The timezone database (`tzdb`) stands for the host's
tzdata files consulted by `ZoneInfo`. -/
def localToUtc (tzdb : PyStr → Option Zone) (localTimeStr : PyStr)
    (timezoneName : PyStr) (fixedOffset : Option PyStr) : Except TimeErr Int :=
  match tryFormats timestampFormats localTimeStr with
  | none => .error .parseError
  | some dt =>
    if truthyOpt fixedOffset then
      match parseFixedOffset (fixedOffset.getD []) with
      | none => .error .offsetError
      | some off =>
        let u := toEpoch dt - off
        if minEpoch ≤ u ∧ u ≤ maxEpoch then .ok u else .error .rangeError
    else
      match tzdb timezoneName with
      | none => .error .zoneError
      | some z => .ok (toEpoch dt - offsetAtLocal z true (toEpoch dt))

end HighzTempDb

namespace HighzTempDb

/-! ## A concrete timezone database extract

`America/New_York` around 2024, from tzdata: EST (−5 h) initially, the
spring-forward transition of 2024-03-10 07:00 UTC to EDT (−4 h), and the
fall-back transition of 2024-11-03 06:00 UTC to EST. -/

def nyZone : Zone := ⟨-18000, [(1710054000, -14400), (1730613600, -18000)]⟩

def demoTzdb : PyStr → Option Zone :=
  fun n => if n = pys "America/New_York" then some nyZone else none

/-! ## Traversal lemmas for the zone lookup -/

/-- The offset after the last of a list of transitions. -/
def lastOffset (cur : Int) (l : List (Int × Int)) : Int :=
  l.foldl (fun _ p => p.2) cur

/-! ## Database state and the ingestion pipeline

The relational store, at the schema level `ingest_ibutton_csv.py` uses.
`AUTOINCREMENT` row ids (`cursor.lastrowid`) are modelled by explicit
counters.  The `deployments` table is not modelled: every claim concerns
`ingest_csv_file`, which receives `deployment_id` ready-made. -/

structure SensorRow where
  sensorId : Nat
  sensorType : PyStr
  partNumber : PyStr
  registrationNumber : PyStr
  label : Option PyStr
  deriving DecidableEq, Repr

structure SensorDeploymentRow where
  sensorId : Nat
  deploymentId : Nat
  locationNotes : Option PyStr
  notes : Option PyStr
  deriving DecidableEq, Repr

structure FileRow where
  fileId : Nat
  deploymentId : Nat
  sensorId : Nat
  path : PyStr
  sha256 : PyStr
  metadataJson : List (PyStr × PyStr)
  deriving DecidableEq, Repr

structure ReadingRow where
  fileId : Nat
  deploymentId : Nat
  sensorId : Nat
  timeLocalText : PyStr
  timeUtc : Int
  valueC : PyFloat
  qualityFlag : Nat
  deriving DecidableEq, Repr

structure DBState where
  sensors : List SensorRow
  sensorDeployments : List SensorDeploymentRow
  files : List FileRow
  readings : List ReadingRow
  nextSensorId : Nat
  nextFileId : Nat
  deriving DecidableEq, Repr

/-- Python `dict[key] = value`: overwrite in place, else append (dicts keep
first-insertion order). -/
def dictInsert (d : List (PyStr × PyStr)) (k v : PyStr) : List (PyStr × PyStr) :=
  if d.any (fun p => p.1 = k) then d.map (fun p => if p.1 = k then (k, v) else p)
  else d ++ [(k, v)]

/-- Python `dict.get(key)`. -/
def dictGet (d : List (PyStr × PyStr)) (k : PyStr) : Option PyStr :=
  (d.find? (fun p => p.1 = k)).map Prod.snd

/-- Python `a or b` on optional strings: empty string and `None` are falsy. -/
def pyOrOpt (a b : Option PyStr) : Option PyStr :=
  match a with
  | some s => if s.isEmpty then b else some s
  | none => b

/-- Key chain `metadata.get(k1) or metadata.get(k2) or metadata.get(k3) or ''`. -/
def keyChain (md : List (PyStr × PyStr)) (k1 k2 k3 : String) : PyStr :=
  (pyOrOpt (dictGet md (pys k1))
    (pyOrOpt (dictGet md (pys k2)) (dictGet md (pys k3)))).getD []

/-- The part-number key chain of `get_or_create_sensor`. -/
def partNumberOf (md : List (PyStr × PyStr)) : PyStr :=
  keyChain md "1-Wire/iButton Part Number" "Part Number" "Part"

/-- The registration-number key chain of `get_or_create_sensor`. -/
def registrationOf (md : List (PyStr × PyStr)) : PyStr :=
  keyChain md "1-Wire/iButton Registration Number" "Registration Number" "Registration"

inductive IngestErr where
  /-- Error of `parse_ibutton_header`: `Could not find data section`. -/
  | formatError
  /-- Error of `get_or_create_sensor`: `Registration number not found in metadata`. -/
  | validationError
  deriving DecidableEq, Repr

/-- Model of `parse_ibutton_header`, scanning CSV rows with 1-based indices: a row whose
first field strip-lowers to `date/time` or `date time` ends the header; empty
rows are skipped; rows of two or more fields are `key,value` pairs (trailing
colons stripped from the key); single-field rows containing a colon are split
on the first colon. -/
def parseIButtonHeaderAux : Nat → List (PyStr × PyStr) → List (List PyStr) →
    Option (List (PyStr × PyStr) × Nat)
  | _, _, [] => none
  | i, md, row :: rows =>
    if row.isEmpty then parseIButtonHeaderAux (i + 1) md rows
    else if pyLower (pyStrip (row.headD [])) = pys "date/time"
        || pyLower (pyStrip (row.headD [])) = pys "date time" then
      some (md, i)
    else if 2 ≤ row.length then
      parseIButtonHeaderAux (i + 1)
        (dictInsert md (pyRstripColon (pyStrip (row.headD []))) (pyStrip (row.getD 1 [])))
        rows
    else if row.length = 1 && pyContainsSub (row.headD []) (pys ":") then
      match pySplitCharOnce (row.headD []) ':' with
      | [k, v] => parseIButtonHeaderAux (i + 1) (dictInsert md (pyStrip k) (pyStrip v)) rows
      | _ => parseIButtonHeaderAux (i + 1) md rows
    else parseIButtonHeaderAux (i + 1) md rows

def parseIButtonHeader (rows : List (List PyStr)) : Option (List (PyStr × PyStr) × Nat) :=
  parseIButtonHeaderAux 1 [] rows

/-- Model of `get_or_create_sensor`: look up by registration number; back-fill a missing
label; otherwise insert a new sensor with the fixed device-type tag. -/
def getOrCreateSensor (st : DBState) (md : List (PyStr × PyStr))
    (label : Option PyStr) : Except IngestErr (DBState × Nat) :=
  if (registrationOf md).isEmpty then .error .validationError
  else
    match st.sensors.find? (fun r => r.registrationNumber = registrationOf md) with
    | some row =>
      if truthyOpt label && !(truthyOpt row.label) then
        .ok ({ st with sensors := st.sensors.map fun r =>
                if r.sensorId = row.sensorId then { r with label := label } else r },
          row.sensorId)
      else .ok (st, row.sensorId)
    | none =>
      .ok ({ st with
          sensors := st.sensors ++ [⟨st.nextSensorId, pys "ibutton_ds1925",
            partNumberOf md, registrationOf md, label⟩],
          nextSensorId := st.nextSensorId + 1 },
        st.nextSensorId)

/-- Model of `upsert_sensor_deployment`: overwrite the context fields of an existing
`(sensor, deployment)` row, else insert one. -/
def upsertSensorDeployment (st : DBState) (sensorId deploymentId : Nat)
    (locationNotes notes : Option PyStr) : DBState :=
  if st.sensorDeployments.any
      (fun r => r.sensorId = sensorId ∧ r.deploymentId = deploymentId) then
    { st with sensorDeployments := st.sensorDeployments.map fun r =>
        if r.sensorId = sensorId ∧ r.deploymentId = deploymentId then
          { r with locationNotes := locationNotes, notes := notes }
        else r }
  else
    { st with sensorDeployments :=
        st.sensorDeployments ++ [⟨sensorId, deploymentId, locationNotes, notes⟩] }

/-- Model of `utils.file_already_ingested`: any `files` row with this hash. -/
def fileAlreadyIngested (st : DBState) (sha256 : PyStr) : Bool :=
  st.files.any (fun f => f.sha256 = sha256)

def ibuttonMarkerUpper : PyStr := pys "_iButton_"

def ibuttonMarkerLower : PyStr := pys "_ibutton_"

/-- Label derivation from the filename stem (`ingest_csv_file`):
`filename.split('_iButton_')[0].split('_ibutton_')[0]` when either exact
marker occurs, otherwise no label. -/
def deriveLabel (filename : PyStr) : Option PyStr :=
  if pyContainsSub filename ibuttonMarkerUpper
      || pyContainsSub filename ibuttonMarkerLower then
    some (pySplitHead (pySplitHead filename ibuttonMarkerUpper) ibuttonMarkerLower)
  else none

/-- Per-sensor entry of the deployment metadata document. -/
structure SensorMeta where
  location : Option PyStr := none
  notes : Option PyStr := none
  deriving DecidableEq, Repr

/-- The optional `deployment_metadata.json` document. -/
structure DeploymentMetadataDoc where
  deployment : Option PyStr := none
  site : Option PyStr := none
  timezone : Option PyStr := none
  timezoneFixedOffset : Option PyStr := none
  deploymentNotes : Option PyStr := none
  sensors : List (PyStr × SensorMeta) := []
  deriving DecidableEq, Repr

/-- Lookup `deployment_metadata.get('sensors', {}).get(label, {})`; a `None` label is
never a key of the per-sensor map. -/
def sensorMetaFor (doc : DeploymentMetadataDoc) (label : Option PyStr) : SensorMeta :=
  match label with
  | none => {}
  | some l => ((doc.sensors.find? (fun p => p.1 = l)).map Prod.snd).getD {}

/-- One CSV input file at the level the `csv` module delivers it: parsed rows
in file order, the filename stem, the path, and the digest the File Hasher
computes over its bytes. -/
structure CsvFile where
  path : PyStr
  stem : PyStr
  rows : List (List PyStr)
  sha256 : PyStr
  deriving Repr

structure IngestReport where
  skipped : Bool
  warnings : Nat
  deriving DecidableEq, Repr

/-- The reading produced by one data row, if any: at least three fields,
non-empty stripped time and value, timestamp and value both parse; the quality
flag is the constant 0. -/
def rowReading (tzdb : PyStr → Option Zone) (fileId deploymentId sensorId : Nat)
    (tzName : PyStr) (fixedOffset : Option PyStr) (row : List PyStr) :
    Option ReadingRow :=
  if 3 ≤ row.length then
    if (pyStrip (row.getD 0 [])).isEmpty || (pyStrip (row.getD 2 [])).isEmpty then none
    else
      match localToUtc tzdb (pyStrip (row.getD 0 [])) tzName fixedOffset,
          pyFloat (pyStrip (row.getD 2 [])) with
      | .ok u, some q =>
        some ⟨fileId, deploymentId, sensorId, pyStrip (row.getD 0 []), u, q, 0⟩
      | _, _ => none
  else none

/-- Whether a data row is well-formed enough to reach the parse attempt. -/
def rowConsidered (row : List PyStr) : Bool :=
  3 ≤ row.length && !(pyStrip (row.getD 0 [])).isEmpty
    && !(pyStrip (row.getD 2 [])).isEmpty

/-- Whether both the timestamp and the value of a row parse. -/
def rowParses (tzdb : PyStr → Option Zone) (tzName : PyStr)
    (fixedOffset : Option PyStr) (row : List PyStr) : Bool :=
  rowConsidered row
    && (localToUtc tzdb (pyStrip (row.getD 0 [])) tzName fixedOffset).isOk
    && (pyFloat (pyStrip (row.getD 2 []))).isSome

/-- Whether a row triggers the row-level warning (reached the parse attempt
and failed it). -/
def rowWarns (tzdb : PyStr → Option Zone) (tzName : PyStr)
    (fixedOffset : Option PyStr) (row : List PyStr) : Bool :=
  rowConsidered row && !(rowParses tzdb tzName fixedOffset row)

/-- The reading loop of `ingest_csv_file` (1-based row index `i`): rows at or
before the data-start line are skipped, short rows and rows with empty time or
value are skipped silently, rows failing the parse attempt are counted as
warnings, the rest become readings in file order. -/
def rowLoop (tzdb : PyStr → Option Zone) (fileId deploymentId sensorId : Nat)
    (tzName : PyStr) (fixedOffset : Option PyStr) (dataStartLine : Nat) :
    Nat → List (List PyStr) → List ReadingRow × Nat
  | _, [] => ([], 0)
  | i, row :: rest =>
    if i < dataStartLine then
      rowLoop tzdb fileId deploymentId sensorId tzName fixedOffset dataStartLine (i + 1) rest
    else if i = dataStartLine then
      rowLoop tzdb fileId deploymentId sensorId tzName fixedOffset dataStartLine (i + 1) rest
    else if row.length < 3 then
      rowLoop tzdb fileId deploymentId sensorId tzName fixedOffset dataStartLine (i + 1) rest
    else if (pyStrip (row.getD 0 [])).isEmpty || (pyStrip (row.getD 2 [])).isEmpty then
      rowLoop tzdb fileId deploymentId sensorId tzName fixedOffset dataStartLine (i + 1) rest
    else
      match localToUtc tzdb (pyStrip (row.getD 0 [])) tzName fixedOffset,
          pyFloat (pyStrip (row.getD 2 [])) with
      | .ok u, some q =>
        let p := rowLoop tzdb fileId deploymentId sensorId tzName fixedOffset dataStartLine
          (i + 1) rest
        (⟨fileId, deploymentId, sensorId, pyStrip (row.getD 0 []), u, q, 0⟩ :: p.1, p.2)
      | _, _ =>
        let p := rowLoop tzdb fileId deploymentId sensorId tzName fixedOffset dataStartLine
          (i + 1) rest
        (p.1, p.2 + 1)

/-- Model of `ingest_csv_file`: parse the header, derive the label and per-sensor
overrides, resolve the sensor, upsert the association, then the hash check
(skip if already ingested), then the file row, the reading loop, and the bulk
insert. -/
def ingestCsvFile (tzdb : PyStr → Option Zone) (st : DBState) (f : CsvFile)
    (deploymentId : Nat) (timezoneName : PyStr) (depMeta : DeploymentMetadataDoc)
    (fixedOffset : Option PyStr) : Except IngestErr (DBState × IngestReport) :=
  match parseIButtonHeader f.rows with
  | none => .error .formatError
  | some (metadata, dataStartLine) =>
    let label := deriveLabel f.stem
    let sensorMeta := sensorMetaFor depMeta label
    match getOrCreateSensor st metadata label with
    | .error e => .error e
    | .ok (st1, sensorId) =>
      let st2 := upsertSensorDeployment st1 sensorId deploymentId
        sensorMeta.location sensorMeta.notes
      if fileAlreadyIngested st2 f.sha256 then
        .ok (st2, ⟨true, 0⟩)
      else
        let fileMetadata :=
          match sensorMeta.notes with
          | some n =>
            if n.isEmpty then metadata
            else dictInsert metadata (pys "deployment_sensor_notes") n
          | none => metadata
        let st3 := { st2 with
          files := st2.files ++
            [(⟨st2.nextFileId, deploymentId, sensorId, f.path, f.sha256,
              fileMetadata⟩ : FileRow)],
          nextFileId := st2.nextFileId + 1 }
        let p := rowLoop tzdb st2.nextFileId deploymentId sensorId timezoneName
          fixedOffset dataStartLine 1 f.rows
        .ok ({ st3 with readings := st3.readings ++ p.1 }, ⟨false, p.2⟩)

/-- The committed state after `main`'s per-file `try/except`: a file aborted
by an error leaves the state as already committed before the error — for the
errors modelled here, unchanged. -/
def ingestResultState (tzdb : PyStr → Option Zone) (st : DBState) (f : CsvFile)
    (deploymentId : Nat) (timezoneName : PyStr) (depMeta : DeploymentMetadataDoc)
    (fixedOffset : Option PyStr) : DBState :=
  match ingestCsvFile tzdb st f deploymentId timezoneName depMeta fixedOffset with
  | .ok (st1, _) => st1
  | .error _ => st

/-! ## The invocation surface of `main` -/

/-- The parsed command line (`--timezone` has an argparse default, so it is
always a string). -/
structure CliArgs where
  deployment : Option PyStr
  site : Option PyStr
  timezone : PyStr
  notes : Option PyStr
  deriving DecidableEq, Repr

structure ResolvedConfig where
  deploymentName : Option PyStr
  siteName : Option PyStr
  timezoneName : PyStr
  fixedOffset : Option PyStr
  deploymentNotes : Option PyStr
  deriving DecidableEq, Repr

/-- Merge of the invocation surface with the document in `main`:
`deployment_name = args.deployment or deployment_metadata.get('deployment')`,
`site_name = args.site or deployment_metadata.get('site')`,
`timezone_name = deployment_metadata.get('timezone') or args.timezone`,
`fixed_offset = deployment_metadata.get('timezone_fixed_offset')`,
`deployment_notes = args.notes or deployment_metadata.get('deployment_notes')`. -/
def resolveConfig (args : CliArgs) (md : DeploymentMetadataDoc) : ResolvedConfig :=
  { deploymentName := pyOrOpt args.deployment md.deployment
    siteName := pyOrOpt args.site md.site
    timezoneName := (pyOrOpt md.timezone (some args.timezone)).getD []
    fixedOffset := md.timezoneFixedOffset
    deploymentNotes := pyOrOpt args.notes md.deploymentNotes }

/-- C2 counterexample fixture: timezone supplied on both surfaces. -/
def c2Args : CliArgs :=
  ⟨some (pys "Adak_2025Dec"), some (pys "Adak"), pys "Europe/Paris", none⟩

/-- C2 counterexample fixture: the metadata document names another zone. -/
def c2Doc : DeploymentMetadataDoc := { timezone := some (pys "America/Chicago") }

theorem offsetAtLocalAux_append (L : Int) (pre : List (Int × Int)) :
    ∀ (cur : Int) (rest : List (Int × Int)),
    (∀ p ∈ pre, p.1 + p.2 ≤ L) →
    offsetAtLocalAux cur (pre ++ rest) true L
      = offsetAtLocalAux (lastOffset cur pre) rest true L := by
  induction pre with
  | nil => intro cur rest _; rfl
  | cons q qs ih =>
    intro cur rest h
    obtain ⟨u, o⟩ := q
    have hq : u + o ≤ L := h (u, o) (List.mem_cons_self _ _)
    have hmin : min cur o ≤ o := min_le_right _ _
    have hcond : ¬ (L < u + min cur o) := by omega
    simp only [List.cons_append, offsetAtLocalAux, if_true]
    rw [if_neg (by simpa using hcond)]
    exact ih o rest (fun p hp => h p (List.mem_cons_of_mem _ hp))

theorem offsetAtLocalAux_stop (cur : Int) (l : List (Int × Int)) (L : Int)
    (h : ∀ p ∈ l, L < p.1 + min cur p.2) :
    offsetAtLocalAux cur l true L = cur := by
  cases l with
  | nil => rfl
  | cons q rest =>
    obtain ⟨u, o⟩ := q
    have hq : L < u + min cur o := h (u, o) (List.mem_cons_self _ _)
    simp only [offsetAtLocalAux, if_true]
    rw [if_pos (by simpa using hq)]

theorem offsetAtUtcAux_append (t : Int) (pre : List (Int × Int)) :
    ∀ (cur : Int) (rest : List (Int × Int)),
    (∀ p ∈ pre, p.1 ≤ t) →
    offsetAtUtcAux cur (pre ++ rest) t = offsetAtUtcAux (lastOffset cur pre) rest t := by
  induction pre with
  | nil => intro cur rest _; rfl
  | cons q qs ih =>
    intro cur rest h
    obtain ⟨u, o⟩ := q
    have hq : u ≤ t := h (u, o) (List.mem_cons_self _ _)
    simp only [List.cons_append, offsetAtUtcAux]
    rw [if_neg (by omega)]
    exact ih o rest (fun p hp => h p (List.mem_cons_of_mem _ hp))

theorem offsetAtUtcAux_stop (cur : Int) (l : List (Int × Int)) (t : Int)
    (h : ∀ p ∈ l, t < p.1) :
    offsetAtUtcAux cur l t = cur := by
  cases l with
  | nil => rfl
  | cons q rest =>
    obtain ⟨u, o⟩ := q
    have hq : t < u := h (u, o) (List.mem_cons_self _ _)
    simp only [offsetAtUtcAux]
    rw [if_pos (by omega)]

/-- C1: with no fixed offset, a local-timestamp string falling in the repeated
hour of a fall-back transition of the supplied IANA timezone is resolved by
`local_to_utc` to the epoch instant of the second (post-transition,
standard-time) occurrence of that wall-clock time, not the first.  The zone is
given as `pre ++ (u, offAfter) :: post` with `offBefore = lastOffset init pre`
the offset in force before the designated transition; the hypotheses place the
parsed wall-clock time `toEpoch dt` inside the fall-back overlap of that
transition and the other transitions away from it.  The conclusion also
exhibits both UTC preimages of the wall-clock time and orders them. -/
theorem claim_C1 (tzdb : PyStr → Option Zone) (s tzName : PyStr) (dt : DateTime)
    (z : Zone) (pre post : List (Int × Int)) (u offAfter : Int)
    (hz : tzdb tzName = some z)
    (htrans : z.transitions = pre ++ (u, offAfter) :: post)
    (hparse : tryFormats timestampFormats s = some dt)
    (hfall : offAfter < lastOffset z.initOffset pre)
    (hwin : u + offAfter ≤ toEpoch dt ∧ toEpoch dt < u + lastOffset z.initOffset pre)
    (hpre : ∀ p ∈ pre, p.1 + p.2 ≤ toEpoch dt ∧
        p.1 + lastOffset z.initOffset pre ≤ toEpoch dt ∧ p.1 + offAfter ≤ toEpoch dt)
    (hpost : ∀ p ∈ post, toEpoch dt < p.1 + min offAfter p.2) :
    localToUtc tzdb s tzName none = .ok (toEpoch dt - offAfter)
    ∧ (toEpoch dt - offAfter) + offsetAtUtc z (toEpoch dt - offAfter) = toEpoch dt
    ∧ (toEpoch dt - lastOffset z.initOffset pre)
        + offsetAtUtc z (toEpoch dt - lastOffset z.initOffset pre) = toEpoch dt
    ∧ toEpoch dt - lastOffset z.initOffset pre < toEpoch dt - offAfter := by
  have hofs : offsetAtLocal z true (toEpoch dt) = offAfter := by
    unfold offsetAtLocal
    rw [htrans, offsetAtLocalAux_append (toEpoch dt) pre z.initOffset _
      (fun p hp => (hpre p hp).1)]
    simp only [offsetAtLocalAux, if_true]
    rw [min_eq_right (le_of_lt hfall), if_neg (by have := hwin.1; simpa using not_lt.mpr this)]
    exact offsetAtLocalAux_stop _ _ _ hpost
  have hsecond : offsetAtUtc z (toEpoch dt - offAfter) = offAfter := by
    unfold offsetAtUtc
    rw [htrans, offsetAtUtcAux_append (toEpoch dt - offAfter) pre z.initOffset _
      (fun p hp => by have := (hpre p hp).2.2; omega)]
    simp only [offsetAtUtcAux]
    rw [if_neg (by have := hwin.1; omega)]
    refine offsetAtUtcAux_stop _ _ _ (fun p hp => ?_)
    have h1 := hpost p hp
    have h2 : min offAfter p.2 ≤ offAfter := min_le_left _ _
    omega
  have hfirst : offsetAtUtc z (toEpoch dt - lastOffset z.initOffset pre)
      = lastOffset z.initOffset pre := by
    unfold offsetAtUtc
    rw [htrans, offsetAtUtcAux_append (toEpoch dt - lastOffset z.initOffset pre) pre
      z.initOffset _ (fun p hp => by have := (hpre p hp).2.1; omega)]
    refine offsetAtUtcAux_stop _ _ _ (fun p hp => ?_)
    rcases List.mem_cons.mp hp with h | h
    · rw [h]; have := hwin.2; omega
    · have h1 := hpost p h
      have h2 : min offAfter p.2 ≤ offAfter := min_le_left _ _
      have h3 := hfall
      omega
  refine ⟨?_, by rw [hsecond]; omega, by rw [hfirst]; omega, by omega⟩
  simp only [localToUtc, hparse, hz, truthyOpt, Bool.false_eq_true, if_false, hofs]

/-- Witness for C1: `"11/03/24 01:30:00 AM"` in `America/New_York` (fall-back
of 2024-11-03) resolves to 06:30 UTC, the EST occurrence. -/
theorem claim_C1_witness :
    localToUtc demoTzdb (pys "11/03/24 01:30:00 AM") (pys "America/New_York") none
      = .ok 1730615400
    ∧ (1730615400 : Int) + offsetAtUtc nyZone 1730615400 = 1730597400
    ∧ (1730611800 : Int) + offsetAtUtc nyZone 1730611800 = 1730597400
    ∧ (1730611800 : Int) < 1730615400 := by
  have h := claim_C1 demoTzdb (pys "11/03/24 01:30:00 AM") (pys "America/New_York")
    ⟨2024, 11, 3, 1, 30, 0⟩ nyZone [(1710054000, -14400)] [] 1730613600 (-18000)
    (by decide) (by decide) (by decide) (by decide) (by decide)
    (by decide) (by decide)
  exact h

end HighzTempDb

namespace HighzTempDb

/-- C5: `local_to_utc` tries the four candidate formats in the documented
order (`%m/%d/%y` 12-hour AM/PM; `%m/%d/%Y` 12-hour AM/PM; `%Y-%m-%d`
24-hour; `%m/%d/%y` 24-hour), uses the first format that parses, a format
only matches when it consumes the entire string, and when none of the four
matches the function fails with the parse error. -/
theorem claim_C5 (tzdb : PyStr → Option Zone) (s tzName : PyStr)
    (fixedOffset : Option PyStr) :
    (tryFormats timestampFormats s = none →
      localToUtc tzdb s tzName fixedOffset = .error .parseError)
    ∧ (∀ dt, strptimeF fmtMDY2Ampm s = some dt →
        tryFormats timestampFormats s = some dt)
    ∧ (strptimeF fmtMDY2Ampm s = none → ∀ dt, strptimeF fmtMDY4Ampm s = some dt →
        tryFormats timestampFormats s = some dt)
    ∧ (strptimeF fmtMDY2Ampm s = none → strptimeF fmtMDY4Ampm s = none →
        ∀ dt, strptimeF fmtISO s = some dt → tryFormats timestampFormats s = some dt)
    ∧ (strptimeF fmtMDY2Ampm s = none → strptimeF fmtMDY4Ampm s = none →
        strptimeF fmtISO s = none → ∀ dt, strptimeF fmtMDY2H24 s = some dt →
        tryFormats timestampFormats s = some dt)
    ∧ (strptimeF fmtMDY2Ampm s = none → strptimeF fmtMDY4Ampm s = none →
        strptimeF fmtISO s = none → strptimeF fmtMDY2H24 s = none →
        tryFormats timestampFormats s = none)
    ∧ (∀ fmt ∈ timestampFormats, ∀ dt, strptimeF fmt s = some dt →
        ∃ flds, runFormat fmt {} s = some (flds, [])) := by
  refine ⟨?_, ?_, ?_, ?_, ?_, ?_, ?_⟩
  · intro h; simp only [localToUtc, h]
  · intro dt h; simp only [timestampFormats, tryFormats, h]
  · intro h1 dt h2; simp only [timestampFormats, tryFormats, h1, h2]
  · intro h1 h2 dt h3; simp only [timestampFormats, tryFormats, h1, h2, h3]
  · intro h1 h2 h3 dt h4; simp only [timestampFormats, tryFormats, h1, h2, h3, h4]
  · intro h1 h2 h3 h4; simp only [timestampFormats, tryFormats, h1, h2, h3, h4]
  · intro fmt _ dt h
    unfold strptimeF at h
    rcases hr : runFormat fmt {} s with _ | ⟨f, rest⟩
    · rw [hr] at h; exact absurd h (by simp)
    · rcases rest with _ | ⟨c, cs⟩
      · exact ⟨f, rfl⟩
      · rw [hr] at h; exact absurd h (by simp)

/-- Witness for C5: an unparseable string yields the parse error, and an
ISO-format string is resolved by the third format after the first two fail. -/
theorem claim_C5_witness :
    localToUtc demoTzdb (pys "bogus") (pys "America/New_York") none = .error .parseError
    ∧ tryFormats timestampFormats (pys "2024-12-31 23:59:59")
        = some ⟨2024, 12, 31, 23, 59, 59⟩ := by
  refine ⟨(claim_C5 demoTzdb (pys "bogus") (pys "America/New_York") none).1 (by decide), ?_⟩
  exact (claim_C5 demoTzdb (pys "2024-12-31 23:59:59") (pys "America/New_York")
    none).2.2.2.1 (by decide) (by decide) _ (by decide)

/-- C6: in fixed-offset mode, the returned UTC epoch value shifted back by
adding the parsed offset reproduces the epoch encoding of the parsed naive
local time exactly (the output is an integer count of epoch seconds). -/
theorem claim_C6 (tzdb : PyStr → Option Zone) (s tzName off : PyStr)
    (dt : DateTime) (k : Int)
    (hparse : tryFormats timestampFormats s = some dt)
    (hne : off ≠ [])
    (hoff : parseFixedOffset off = some k)
    (hrange : minEpoch ≤ toEpoch dt - k ∧ toEpoch dt - k ≤ maxEpoch) :
    localToUtc tzdb s tzName (some off) = .ok (toEpoch dt - k)
    ∧ (toEpoch dt - k) + k = toEpoch dt := by
  cases off with
  | nil => exact absurd rfl hne
  | cons c tail =>
    refine ⟨?_, by omega⟩
    simp only [localToUtc, hparse, truthyOpt, List.isEmpty_cons, Bool.not_false,
      if_true, Option.getD_some, hoff]
    rw [if_pos hrange]

/-- Witness for C6: `"12/31/24 11:59:59 PM"` with fixed offset `"-05:00"`. -/
theorem claim_C6_witness :
    localToUtc demoTzdb (pys "12/31/24 11:59:59 PM") (pys "America/New_York")
      (some (pys "-05:00")) = .ok 1735707599
    ∧ (1735707599 : Int) + (-18000) = 1735689599 := by
  have h := claim_C6 demoTzdb (pys "12/31/24 11:59:59 PM") (pys "America/New_York")
    (pys "-05:00") ⟨2024, 12, 31, 23, 59, 59⟩ (-18000)
    (by decide) (by decide) (by decide) (by decide)
  exact ⟨h.1, by omega⟩

/-- C9: a non-empty fixed-offset string whose first character is not `'+'` is
treated exactly as if it carried an explicit leading minus sign, and the
parsed local time is shifted forward by the parsed hour/minute magnitude to
obtain UTC. -/
theorem claim_C9 (tzdb : PyStr → Option Zone) (s tzName off : PyStr)
    (hne : off ≠ []) (hplus : off.head? ≠ some '+') :
    localToUtc tzdb s tzName (some off)
      = localToUtc tzdb s tzName (some ('-' :: off.tail))
    ∧ (∀ dt hs ms h m, tryFormats timestampFormats s = some dt →
        pySplitChar off.tail ':' = [hs, ms] → pyInt hs = some h → pyInt ms = some m →
        minEpoch ≤ toEpoch dt + (h * 3600 + m * 60) →
        toEpoch dt + (h * 3600 + m * 60) ≤ maxEpoch →
        localToUtc tzdb s tzName (some off) = .ok (toEpoch dt + (h * 3600 + m * 60))) := by
  cases off with
  | nil => exact absurd rfl hne
  | cons c tail =>
    have hc : c ≠ '+' := fun hEq => hplus (by simp [hEq])
    have heq : parseFixedOffset (c :: tail) = parseFixedOffset ('-' :: tail) := by
      simp only [parseFixedOffset, if_neg hc, if_neg (by decide : ¬ ('-' = '+'))]
    constructor
    · cases hp : tryFormats timestampFormats s with
      | none => simp only [localToUtc, hp]
      | some dt =>
        simp only [localToUtc, hp, truthyOpt, List.isEmpty_cons, Bool.not_false,
          if_true, Option.getD_some, List.tail_cons, heq]
    · intro dt hs ms h m hp hsplit hh hm hlo hhi
      simp only [List.tail_cons] at hsplit
      have hoffv : parseFixedOffset (c :: tail) = some (-1 * h * 3600 + -1 * m * 60) := by
        simp only [parseFixedOffset, hsplit, hh, hm, if_neg hc]
      have harith : toEpoch dt - (-1 * h * 3600 + -1 * m * 60)
          = toEpoch dt + (h * 3600 + m * 60) := by ring
      simp only [localToUtc, hp, truthyOpt, List.isEmpty_cons, Bool.not_false,
        if_true, Option.getD_some, hoffv, harith]
      rw [if_pos ⟨hlo, hhi⟩]

/-- Witness for C9: the unsigned offset `"04:00"` and the signed `"-04:00"`
both shift `"12/31/24 11:59:59 PM"` forward by four hours. -/
theorem claim_C9_witness :
    localToUtc demoTzdb (pys "12/31/24 11:59:59 PM") (pys "America/New_York")
      (some (pys "04:00")) = .ok 1735703999
    ∧ localToUtc demoTzdb (pys "12/31/24 11:59:59 PM") (pys "America/New_York")
      (some (pys "-04:00")) = .ok 1735703999 := by
  have h1 := (claim_C9 demoTzdb (pys "12/31/24 11:59:59 PM") (pys "America/New_York")
    (pys "04:00") (by decide) (by decide)).2 ⟨2024, 12, 31, 23, 59, 59⟩
    (pys "4") (pys "00") 4 0 (by decide) (by decide) (by decide) (by decide)
    (by decide) (by decide)
  have h2 := (claim_C9 demoTzdb (pys "12/31/24 11:59:59 PM") (pys "America/New_York")
    (pys "-04:00") (by decide) (by decide)).2 ⟨2024, 12, 31, 23, 59, 59⟩
    (pys "04") (pys "00") 4 0 (by decide) (by decide) (by decide) (by decide)
    (by decide) (by decide)
  exact ⟨h1, h2⟩

/-- C10: whenever a non-empty fixed offset is supplied, the result of
`local_to_utc` is independent of the IANA timezone name and of the timezone
database: fixed-offset mode takes precedence and the timezone argument is
never consulted. -/
theorem claim_C10 (db1 db2 : PyStr → Option Zone) (s tz1 tz2 off : PyStr)
    (hne : off ≠ []) :
    localToUtc db1 s tz1 (some off) = localToUtc db2 s tz2 (some off) := by
  cases off with
  | nil => exact absurd rfl hne
  | cons c tail =>
    cases hp : tryFormats timestampFormats s with
    | none => simp only [localToUtc, hp]
    | some dt =>
      simp only [localToUtc, hp, truthyOpt, List.isEmpty_cons, Bool.not_false, if_true]

/-- Witness for C10: two different zone names with the same fixed offset. -/
theorem claim_C10_witness :
    localToUtc demoTzdb (pys "12/31/24 11:59:59 PM") (pys "America/New_York")
      (some (pys "-05:00"))
    = localToUtc demoTzdb (pys "12/31/24 11:59:59 PM") (pys "Europe/Paris")
      (some (pys "-05:00")) :=
  claim_C10 demoTzdb demoTzdb (pys "12/31/24 11:59:59 PM") (pys "America/New_York")
    (pys "Europe/Paris") (pys "-05:00") (by decide)

end HighzTempDb

namespace HighzTempDb

/-! ## Invocation-surface precedence (C2) -/

theorem pyOrOpt_truthy (a b : Option PyStr) (h : truthyOpt a = true) : pyOrOpt a b = a := by
  cases a with
  | none => simp [truthyOpt] at h
  | some s =>
    simp only [truthyOpt, Bool.not_eq_true'] at h
    simp [pyOrOpt, h]

theorem pyOrOpt_falsy (a b : Option PyStr) (h : truthyOpt a = false) : pyOrOpt a b = b := by
  cases a with
  | none => rfl
  | some s =>
    have h2 : s.isEmpty = true := by simpa [truthyOpt] using h
    simp only [pyOrOpt, h2, if_true]

/-- C2 counterexample: the timezone is supplied on the invocation surface
(`Europe/Paris`) and in the metadata document (`America/Chicago`); the value
used is the document's, not the invocation-surface one, refuting the claimed
precedence for this field. -/
theorem claim_C2_counterexample :
    (resolveConfig c2Args c2Doc).timezoneName = pys "America/Chicago"
    ∧ (resolveConfig c2Args c2Doc).timezoneName ≠ c2Args.timezone
    ∧ c2Args.timezone = pys "Europe/Paris" := by
  refine ⟨rfl, ?_, rfl⟩
  decide

/-- C2 amended: the deployment name, site and notes take the invocation-surface
value when it is truthy and fall back to the document; the timezone follows the
opposite precedence (a truthy document timezone wins and the invocation value
is only the fallback); the fixed offset is read from the document alone. -/
theorem claim_C2 (args : CliArgs) (md : DeploymentMetadataDoc) :
    (truthyOpt args.deployment = true →
      (resolveConfig args md).deploymentName = args.deployment)
    ∧ (truthyOpt args.deployment = false →
      (resolveConfig args md).deploymentName = md.deployment)
    ∧ (truthyOpt args.site = true → (resolveConfig args md).siteName = args.site)
    ∧ (truthyOpt args.site = false → (resolveConfig args md).siteName = md.site)
    ∧ (truthyOpt args.notes = true →
      (resolveConfig args md).deploymentNotes = args.notes)
    ∧ (truthyOpt args.notes = false →
      (resolveConfig args md).deploymentNotes = md.deploymentNotes)
    ∧ (∀ t, md.timezone = some t → t ≠ [] →
      (resolveConfig args md).timezoneName = t)
    ∧ (truthyOpt md.timezone = false →
      (resolveConfig args md).timezoneName = args.timezone)
    ∧ (resolveConfig args md).fixedOffset = md.timezoneFixedOffset := by
  refine ⟨fun h => ?_, fun h => ?_, fun h => ?_, fun h => ?_, fun h => ?_, fun h => ?_,
    fun t ht hne => ?_, fun h => ?_, rfl⟩
  · show pyOrOpt args.deployment md.deployment = args.deployment
    rw [pyOrOpt_truthy _ _ h]
  · show pyOrOpt args.deployment md.deployment = md.deployment
    rw [pyOrOpt_falsy _ _ h]
  · show pyOrOpt args.site md.site = args.site
    rw [pyOrOpt_truthy _ _ h]
  · show pyOrOpt args.site md.site = md.site
    rw [pyOrOpt_falsy _ _ h]
  · show pyOrOpt args.notes md.deploymentNotes = args.notes
    rw [pyOrOpt_truthy _ _ h]
  · show pyOrOpt args.notes md.deploymentNotes = md.deploymentNotes
    rw [pyOrOpt_falsy _ _ h]
  · show (pyOrOpt md.timezone (some args.timezone)).getD [] = t
    rw [ht]
    cases t with
    | nil => exact absurd rfl hne
    | cons c cs => rfl
  · show (pyOrOpt md.timezone (some args.timezone)).getD [] = args.timezone
    rw [pyOrOpt_falsy _ _ h]
    rfl

/-- Witness for the amended C2 at the counterexample fixture. -/
theorem claim_C2_witness :
    (resolveConfig c2Args c2Doc).deploymentName = some (pys "Adak_2025Dec")
    ∧ (resolveConfig c2Args c2Doc).timezoneName = pys "America/Chicago" := by
  refine ⟨(claim_C2 c2Args c2Doc).1 (by decide), ?_⟩
  exact (claim_C2 c2Args c2Doc).2.2.2.2.2.2.1 (pys "America/Chicago") rfl (by decide)

/-! ## Frame lemmas for the entity-resolution steps (C3, C4, C7) -/

theorem getOrCreateSensor_ok (st : DBState) (md : List (PyStr × PyStr))
    (label : Option PyStr) (hreg : (registrationOf md).isEmpty = false) :
    ∃ st1 sid, getOrCreateSensor st md label = .ok (st1, sid)
      ∧ st1.files = st.files ∧ st1.readings = st.readings := by
  unfold getOrCreateSensor
  rw [hreg]
  simp only [Bool.false_eq_true, if_false]
  split
  · split
    · exact ⟨_, _, rfl, rfl, rfl⟩
    · exact ⟨_, _, rfl, rfl, rfl⟩
  · exact ⟨_, _, rfl, rfl, rfl⟩

theorem getOrCreateSensor_err (st : DBState) (md : List (PyStr × PyStr))
    (label : Option PyStr) (hreg : (registrationOf md).isEmpty = true) :
    getOrCreateSensor st md label = .error .validationError := by
  unfold getOrCreateSensor
  rw [hreg]
  simp

theorem upsertSensorDeployment_frame (st : DBState) (sid did : Nat)
    (loc notes : Option PyStr) :
    (upsertSensorDeployment st sid did loc notes).files = st.files
    ∧ (upsertSensorDeployment st sid did loc notes).readings = st.readings := by
  unfold upsertSensorDeployment
  split <;> exact ⟨rfl, rfl⟩

/-- C3: for a file whose content hash is already in the store, no file row and
no reading rows are added (whatever the file's path), while the sensor
resolution (with its label back-fill) and the SensorDeployment upsert have
already run before the hash check and are therefore applied to the returned
state even though the file is skipped. -/
theorem claim_C3 (tzdb : PyStr → Option Zone) (st : DBState) (f : CsvFile)
    (deploymentId : Nat) (tzName : PyStr) (depMeta : DeploymentMetadataDoc)
    (fixedOffset : Option PyStr) (md : List (PyStr × PyStr)) (dsl : Nat)
    (hparse : parseIButtonHeader f.rows = some (md, dsl))
    (hreg : (registrationOf md).isEmpty = false)
    (hdup : fileAlreadyIngested st f.sha256 = true) :
    ∃ st1 sid,
      getOrCreateSensor st md (deriveLabel f.stem) = .ok (st1, sid)
      ∧ ingestCsvFile tzdb st f deploymentId tzName depMeta fixedOffset
          = .ok (upsertSensorDeployment st1 sid deploymentId
              (sensorMetaFor depMeta (deriveLabel f.stem)).location
              (sensorMetaFor depMeta (deriveLabel f.stem)).notes, ⟨true, 0⟩)
      ∧ (upsertSensorDeployment st1 sid deploymentId
          (sensorMetaFor depMeta (deriveLabel f.stem)).location
          (sensorMetaFor depMeta (deriveLabel f.stem)).notes).files = st.files
      ∧ (upsertSensorDeployment st1 sid deploymentId
          (sensorMetaFor depMeta (deriveLabel f.stem)).location
          (sensorMetaFor depMeta (deriveLabel f.stem)).notes).readings = st.readings := by
  obtain ⟨st1, sid, hgo, hf1, hr1⟩ := getOrCreateSensor_ok st md (deriveLabel f.stem) hreg
  have hframe := upsertSensorDeployment_frame st1 sid deploymentId
    (sensorMetaFor depMeta (deriveLabel f.stem)).location
    (sensorMetaFor depMeta (deriveLabel f.stem)).notes
  have hfiles : (upsertSensorDeployment st1 sid deploymentId
      (sensorMetaFor depMeta (deriveLabel f.stem)).location
      (sensorMetaFor depMeta (deriveLabel f.stem)).notes).files = st.files := by
    rw [hframe.1, hf1]
  have hdup2 : fileAlreadyIngested (upsertSensorDeployment st1 sid deploymentId
      (sensorMetaFor depMeta (deriveLabel f.stem)).location
      (sensorMetaFor depMeta (deriveLabel f.stem)).notes) f.sha256 = true := by
    unfold fileAlreadyIngested at hdup ⊢
    rw [hfiles]
    exact hdup
  refine ⟨st1, sid, hgo, ?_, hfiles, by rw [hframe.2, hr1]⟩
  simp only [ingestCsvFile, hparse, hgo, hdup2, if_true]

/-- Witness fixture for C3: a store already holding the hash `HASH1` under a
different path, and a labelled file with the same hash. -/
def c3State : DBState :=
  ⟨[⟨1, pys "ibutton_ds1925", pys "DS1925L", pys "ABC123", none⟩], [],
   [⟨1, 7, 1, pys "/old/path.csv", pys "HASH1", []⟩], [], 2, 2⟩

def c3File : CsvFile :=
  ⟨pys "/data/Antenna_iButton_Dec2025.csv", pys "Antenna_iButton_Dec2025",
   [[pys "Part Number", pys "DS1925L"],
    [pys "Registration Number", pys "ABC123"],
    [pys "Date/Time", pys "Unit", pys "Value"],
    [pys "12/31/24 11:59:59 PM", pys "C", pys "-5.25"]],
   pys "HASH1"⟩

def c3Md : List (PyStr × PyStr) :=
  [(pys "Part Number", pys "DS1925L"), (pys "Registration Number", pys "ABC123")]

/-- Witness for C3 at the fixture. -/
theorem claim_C3_witness :
    ∃ st1 sid,
      getOrCreateSensor c3State c3Md (deriveLabel c3File.stem) = .ok (st1, sid)
      ∧ ingestCsvFile demoTzdb c3State c3File 7 (pys "America/New_York") {} none
          = .ok (upsertSensorDeployment st1 sid 7
              (sensorMetaFor {} (deriveLabel c3File.stem)).location
              (sensorMetaFor {} (deriveLabel c3File.stem)).notes, ⟨true, 0⟩)
      ∧ (upsertSensorDeployment st1 sid 7
          (sensorMetaFor {} (deriveLabel c3File.stem)).location
          (sensorMetaFor {} (deriveLabel c3File.stem)).notes).files = c3State.files
      ∧ (upsertSensorDeployment st1 sid 7
          (sensorMetaFor {} (deriveLabel c3File.stem)).location
          (sensorMetaFor {} (deriveLabel c3File.stem)).notes).readings
          = c3State.readings :=
  claim_C3 demoTzdb c3State c3File 7 (pys "America/New_York") {} none c3Md 3
    (by decide) (by decide) (by decide)

/-- C4: when the parsed metadata carries none of the recognized
registration-number keys (the prioritized chain yields the empty string),
ingestion of the file fails with the ValidationError and the store is left
unchanged — no sensor, association, file or reading rows are created. -/
theorem claim_C4 (tzdb : PyStr → Option Zone) (st : DBState) (f : CsvFile)
    (deploymentId : Nat) (tzName : PyStr) (depMeta : DeploymentMetadataDoc)
    (fixedOffset : Option PyStr) (md : List (PyStr × PyStr)) (dsl : Nat)
    (hparse : parseIButtonHeader f.rows = some (md, dsl))
    (hreg : (registrationOf md).isEmpty = true) :
    ingestCsvFile tzdb st f deploymentId tzName depMeta fixedOffset
      = .error .validationError
    ∧ ingestResultState tzdb st f deploymentId tzName depMeta fixedOffset = st := by
  have hgo := getOrCreateSensor_err st md (deriveLabel f.stem) hreg
  have h1 : ingestCsvFile tzdb st f deploymentId tzName depMeta fixedOffset
      = .error .validationError := by
    simp only [ingestCsvFile, hparse, hgo]
  refine ⟨h1, ?_⟩
  unfold ingestResultState
  rw [h1]

/-- Witness fixture for C4: a header with no registration-number key. -/
def c4File : CsvFile :=
  ⟨pys "/data/unlabeled.csv", pys "unlabeled",
   [[pys "Part Number", pys "DS1925L"],
    [pys "Date/Time", pys "Unit", pys "Value"],
    [pys "12/31/24 11:59:59 PM", pys "C", pys "-5.25"]],
   pys "HASH2"⟩

/-- Witness for C4 at the fixture. -/
theorem claim_C4_witness :
    ingestCsvFile demoTzdb c3State c4File 7 (pys "America/New_York") {} none
      = .error .validationError
    ∧ ingestResultState demoTzdb c3State c4File 7 (pys "America/New_York") {} none
      = c3State :=
  claim_C4 demoTzdb c3State c4File 7 (pys "America/New_York") {} none
    [(pys "Part Number", pys "DS1925L")] 2 (by decide) (by decide)

end HighzTempDb

namespace HighzTempDb

/-! ## Row-loop characterization (C7) -/

theorem length_filterMap_eq_countP {α β : Type} (f : α → Option β) (l : List α) :
    (l.filterMap f).length = l.countP (fun a => (f a).isSome) := by
  induction l with
  | nil => rfl
  | cons a l ih =>
    cases hfa : f a <;> simp [List.filterMap_cons, hfa, List.countP_cons, ih]

theorem countP_ext {α : Type} (p q : α → Bool) (l : List α)
    (h : ∀ a ∈ l, p a = q a) : l.countP p = l.countP q := by
  induction l with
  | nil => rfl
  | cons a l ih =>
    simp only [List.countP_cons, h a (List.mem_cons_self _ _),
      ih (fun b hb => h b (List.mem_cons_of_mem _ hb))]

theorem rowReading_isSome (tzdb : PyStr → Option Zone) (fid did sid : Nat)
    (tzName : PyStr) (fixedOffset : Option PyStr) (row : List PyStr) :
    (rowReading tzdb fid did sid tzName fixedOffset row).isSome
      = rowParses tzdb tzName fixedOffset row := by
  unfold rowReading rowParses rowConsidered
  by_cases h3 : 3 ≤ row.length
  · cases hA : (pyStrip (row.getD 0 [])).isEmpty with
    | true =>
      have hA' : pyStrip (row.getD 0 []) = [] := by simpa using hA
      simp [h3, hA']
    | false =>
      have hA' : ¬ pyStrip (row.getD 0 []) = [] := by simpa using hA
      cases hB : (pyStrip (row.getD 2 [])).isEmpty with
      | true =>
        have hB' : pyStrip (row.getD 2 []) = [] := by simpa using hB
        simp [h3, hA', hB']
      | false =>
        have hB' : ¬ pyStrip (row.getD 2 []) = [] := by simpa using hB
        cases hu : localToUtc tzdb (pyStrip (row.getD 0 [])) tzName fixedOffset with
        | error e => simp [h3, hA', hB', hu, Except.isOk, Except.toBool]
        | ok u =>
          cases hq : pyFloat (pyStrip (row.getD 2 [])) with
          | none => simp [h3, hA', hB', hu, hq, Except.isOk, Except.toBool]
          | some q => simp [h3, hA', hB', hu, hq, Except.isOk, Except.toBool]
  · simp [h3]

theorem rowReading_flag (tzdb : PyStr → Option Zone) (fid did sid : Nat)
    (tzName : PyStr) (fixedOffset : Option PyStr) (row : List PyStr) (r : ReadingRow)
    (h : rowReading tzdb fid did sid tzName fixedOffset row = some r) :
    r.qualityFlag = 0 := by
  unfold rowReading at h
  by_cases h3 : 3 ≤ row.length
  · rw [if_pos h3] at h
    by_cases hA : ((pyStrip (row.getD 0 [])).isEmpty
        || (pyStrip (row.getD 2 [])).isEmpty) = true
    · rw [if_pos hA] at h; exact absurd h (by simp)
    · rw [if_neg hA] at h
      cases hu : localToUtc tzdb (pyStrip (row.getD 0 [])) tzName fixedOffset with
      | error e => rw [hu] at h; exact absurd h (by simp)
      | ok u =>
        cases hq : pyFloat (pyStrip (row.getD 2 [])) with
        | none => rw [hu, hq] at h; exact absurd h (by simp)
        | some q =>
          rw [hu, hq] at h
          injection h with h
          subst h
          rfl
  · rw [if_neg h3] at h; exact absurd h (by simp)

theorem rowLoop_past (tzdb : PyStr → Option Zone) (fid did sid : Nat)
    (tzName : PyStr) (fixedOffset : Option PyStr) (dsl : Nat) :
    ∀ (rows : List (List PyStr)) (i : Nat), dsl < i →
    rowLoop tzdb fid did sid tzName fixedOffset dsl i rows
      = (rows.filterMap (rowReading tzdb fid did sid tzName fixedOffset),
         rows.countP (rowWarns tzdb tzName fixedOffset)) := by
  intro rows
  induction rows with
  | nil => intro i _; rfl
  | cons row rest ih =>
    intro i hi
    have hrec := ih (i + 1) (by omega)
    have h1 : ¬ (i < dsl) := by omega
    have h2 : ¬ (i = dsl) := by omega
    unfold rowLoop
    rw [if_neg h1, if_neg h2]
    by_cases h3 : row.length < 3
    · rw [if_pos h3, hrec]
      have h3' : ¬ (3 ≤ row.length) := by omega
      simp [List.filterMap_cons, List.countP_cons, rowReading, rowWarns,
        rowConsidered, h3']
    · rcases row with _ | ⟨a, row'⟩
      · simp at h3
      rcases row' with _ | ⟨b, row''⟩
      · simp at h3
      rcases row'' with _ | ⟨c, row3⟩
      · simp at h3
      have hlen : 3 ≤ (a :: b :: c :: row3).length := by
        simp [List.length_cons]
      cases hA : (pyStrip a).isEmpty with
      | true =>
        have hA' : pyStrip a = [] := by simpa using hA
        have hrr : rowReading tzdb fid did sid tzName fixedOffset
            (a :: b :: c :: row3) = none := by
          unfold rowReading
          simp only [List.getD_cons_zero, List.getD_cons_succ]
          rw [if_pos hlen, if_pos (by simp [hA'])]
        have hrw : rowWarns tzdb tzName fixedOffset (a :: b :: c :: row3) = false := by
          simp [rowWarns, rowConsidered, hA']
        simp [hA, hA', hrec, List.filterMap_cons, List.countP_cons, hrr, hrw,
          List.getD_cons_zero, List.getD_cons_succ]
      | false =>
        have hA' : ¬ pyStrip a = [] := by simpa using hA
        cases hB : (pyStrip c).isEmpty with
        | true =>
          have hB' : pyStrip c = [] := by simpa using hB
          have hrr : rowReading tzdb fid did sid tzName fixedOffset
              (a :: b :: c :: row3) = none := by
            unfold rowReading
            simp only [List.getD_cons_zero, List.getD_cons_succ]
            rw [if_pos hlen, if_pos (by simp [hB'])]
          have hrw : rowWarns tzdb tzName fixedOffset (a :: b :: c :: row3) = false := by
            simp [rowWarns, rowConsidered, hB']
          simp [hA, hB, hA', hB', hrec, List.filterMap_cons, List.countP_cons, hrr, hrw,
            List.getD_cons_zero, List.getD_cons_succ]
        | false =>
          have hB' : ¬ pyStrip c = [] := by simpa using hB
          have hcond : ¬ (((pyStrip a).isEmpty || (pyStrip c).isEmpty) = true) := by
            simp [hA', hB']
          cases hu : localToUtc tzdb (pyStrip a) tzName fixedOffset with
          | error e =>
            cases hq : pyFloat (pyStrip c) with
            | none =>
              have hrr : rowReading tzdb fid did sid tzName fixedOffset
                  (a :: b :: c :: row3) = none := by
                unfold rowReading
                simp only [List.getD_cons_zero, List.getD_cons_succ]
                rw [if_pos hlen, if_neg hcond, hu, hq]
              have hrw : rowWarns tzdb tzName fixedOffset (a :: b :: c :: row3)
                  = true := by
                simp [rowWarns, rowConsidered, rowParses, hlen, hA', hB', hu,
                  Except.isOk, Except.toBool]
              simp [hA, hB, hA', hB', hu, hq, hrec, List.filterMap_cons,
                List.countP_cons, hrr, hrw, List.getD_cons_zero, List.getD_cons_succ]
            | some q =>
              have hrr : rowReading tzdb fid did sid tzName fixedOffset
                  (a :: b :: c :: row3) = none := by
                unfold rowReading
                simp only [List.getD_cons_zero, List.getD_cons_succ]
                rw [if_pos hlen, if_neg hcond, hu, hq]
              have hrw : rowWarns tzdb tzName fixedOffset (a :: b :: c :: row3)
                  = true := by
                simp [rowWarns, rowConsidered, rowParses, hlen, hA', hB', hu,
                  Except.isOk, Except.toBool]
              simp [hA, hB, hA', hB', hu, hq, hrec, List.filterMap_cons,
                List.countP_cons, hrr, hrw, List.getD_cons_zero, List.getD_cons_succ]
          | ok u =>
            cases hq : pyFloat (pyStrip c) with
            | none =>
              have hrr : rowReading tzdb fid did sid tzName fixedOffset
                  (a :: b :: c :: row3) = none := by
                unfold rowReading
                simp only [List.getD_cons_zero, List.getD_cons_succ]
                rw [if_pos hlen, if_neg hcond, hu, hq]
              have hrw : rowWarns tzdb tzName fixedOffset (a :: b :: c :: row3)
                  = true := by
                simp [rowWarns, rowConsidered, rowParses, hlen, hA', hB', hu, hq,
                  Except.isOk, Except.toBool]
              simp [hA, hB, hA', hB', hu, hq, hrec, List.filterMap_cons,
                List.countP_cons, hrr, hrw, List.getD_cons_zero, List.getD_cons_succ]
            | some q =>
              have hrr : rowReading tzdb fid did sid tzName fixedOffset
                  (a :: b :: c :: row3)
                  = some ⟨fid, did, sid, pyStrip a, u, q, 0⟩ := by
                unfold rowReading
                simp only [List.getD_cons_zero, List.getD_cons_succ]
                rw [if_pos hlen, if_neg hcond, hu, hq]
              have hrw : rowWarns tzdb tzName fixedOffset (a :: b :: c :: row3)
                  = false := by
                simp [rowWarns, rowConsidered, rowParses, hlen, hA', hB', hu, hq,
                  Except.isOk, Except.toBool]
              simp [hA, hB, hA', hB', hu, hq, hrec, List.filterMap_cons,
                List.countP_cons, hrr, hrw, List.getD_cons_zero, List.getD_cons_succ]

theorem rowLoop_start (tzdb : PyStr → Option Zone) (fid did sid : Nat)
    (tzName : PyStr) (fixedOffset : Option PyStr) (dsl : Nat) :
    ∀ (rows : List (List PyStr)) (i : Nat),
    rowLoop tzdb fid did sid tzName fixedOffset dsl i rows
      = ((rows.drop (dsl + 1 - i)).filterMap
           (rowReading tzdb fid did sid tzName fixedOffset),
         (rows.drop (dsl + 1 - i)).countP (rowWarns tzdb tzName fixedOffset)) := by
  intro rows
  induction rows with
  | nil => intro i; simp [rowLoop]
  | cons row rest ih =>
    intro i
    by_cases hi : dsl < i
    · have h0 : dsl + 1 - i = 0 := by omega
      rw [h0]
      exact rowLoop_past tzdb fid did sid tzName fixedOffset dsl (row :: rest) i hi
    · have hstep : rowLoop tzdb fid did sid tzName fixedOffset dsl i (row :: rest)
          = rowLoop tzdb fid did sid tzName fixedOffset dsl (i + 1) rest := by
        conv_lhs => unfold rowLoop
        by_cases h : i < dsl
        · rw [if_pos h]
        · rw [if_neg h, if_pos (by omega : i = dsl)]
      rw [hstep, ih (i + 1)]
      have hd : dsl + 1 - i = (dsl + 1 - (i + 1)) + 1 := by omega
      rw [hd, List.drop_succ_cons]

/-- C7: for a non-duplicate file whose data block has `N` rows passing both
parses and exactly one row reaching the parse attempt and failing it, the file
is not aborted: exactly `N` readings are appended (each with quality flag 0)
and the report counts exactly one row-level warning. -/
theorem claim_C7 (tzdb : PyStr → Option Zone) (st : DBState) (f : CsvFile)
    (deploymentId : Nat) (tzName : PyStr) (depMeta : DeploymentMetadataDoc)
    (fixedOffset : Option PyStr) (md : List (PyStr × PyStr)) (dsl N : Nat)
    (hparse : parseIButtonHeader f.rows = some (md, dsl))
    (hreg : (registrationOf md).isEmpty = false)
    (hnodup : fileAlreadyIngested st f.sha256 = false)
    (hok : (f.rows.drop dsl).countP (rowParses tzdb tzName fixedOffset) = N)
    (hbad : (f.rows.drop dsl).countP (rowWarns tzdb tzName fixedOffset) = 1) :
    ∃ st1, ingestCsvFile tzdb st f deploymentId tzName depMeta fixedOffset
        = .ok (st1, ⟨false, 1⟩)
      ∧ st1.readings.length = st.readings.length + N
      ∧ ∀ r ∈ st1.readings.drop st.readings.length, r.qualityFlag = 0 := by
  obtain ⟨st1, sid, hgo, hf1, hr1⟩ := getOrCreateSensor_ok st md (deriveLabel f.stem) hreg
  set U := upsertSensorDeployment st1 sid deploymentId
    (sensorMetaFor depMeta (deriveLabel f.stem)).location
    (sensorMetaFor depMeta (deriveLabel f.stem)).notes with hU
  have hframe := upsertSensorDeployment_frame st1 sid deploymentId
    (sensorMetaFor depMeta (deriveLabel f.stem)).location
    (sensorMetaFor depMeta (deriveLabel f.stem)).notes
  have hnodup2 : fileAlreadyIngested U f.sha256 = false := by
    unfold fileAlreadyIngested at hnodup ⊢
    rw [hframe.1, hf1]
    exact hnodup
  have hloop := rowLoop_start tzdb U.nextFileId deploymentId sid tzName fixedOffset
    dsl f.rows 1
  have hd : dsl + 1 - 1 = dsl := by omega
  rw [hd] at hloop
  have hlen : ((f.rows.drop dsl).filterMap
      (rowReading tzdb U.nextFileId deploymentId sid tzName fixedOffset)).length = N := by
    rw [length_filterMap_eq_countP]
    rw [countP_ext _ _ _ (fun row _ => rowReading_isSome tzdb U.nextFileId deploymentId
      sid tzName fixedOffset row)]
    exact hok
  have hread : U.readings = st.readings := by rw [hframe.2, hr1]
  refine ⟨⟨U.sensors, U.sensorDeployments,
      U.files ++ [⟨U.nextFileId, deploymentId, sid, f.path, f.sha256,
        match (sensorMetaFor depMeta (deriveLabel f.stem)).notes with
        | some n =>
          if n.isEmpty then md else dictInsert md (pys "deployment_sensor_notes") n
        | none => md⟩],
      U.readings ++ (f.rows.drop dsl).filterMap
        (rowReading tzdb U.nextFileId deploymentId sid tzName fixedOffset),
      U.nextSensorId, U.nextFileId + 1⟩, ?_, ?_, ?_⟩
  · simp only [ingestCsvFile, hparse, hgo, hnodup2, Bool.false_eq_true, if_false,
      hloop, hbad]
  · simp only [List.length_append, hread, hlen]
  · intro r hr
    simp only [hread, List.drop_left] at hr
    obtain ⟨row, _, hrow⟩ := List.mem_filterMap.mp hr
    exact rowReading_flag _ _ _ _ _ _ _ _ hrow

/-- Witness fixture for C7: two well-formed rows around one row whose value
(`oops`) is not numeric. -/
def c7State : DBState := ⟨[], [], [], [], 1, 1⟩

def c7File : CsvFile :=
  ⟨pys "/data/B_ibutton_Jan2025.csv", pys "B_ibutton_Jan2025",
   [[pys "Registration Number", pys "XYZ"],
    [pys "Date/Time", pys "Unit", pys "Value"],
    [pys "12/31/24 11:59:59 PM", pys "C", pys "-5.25"],
    [pys "01/01/25 12:00:00 AM", pys "C", pys "oops"],
    [pys "01/01/25 01:00:00 AM", pys "C", pys "-5.10"]],
   pys "HASH7"⟩

/-- Witness for C7 at the fixture (N = 2). -/
theorem claim_C7_witness :
    ∃ st1, ingestCsvFile demoTzdb c7State c7File 7 (pys "America/New_York") {} none
        = .ok (st1, ⟨false, 1⟩)
      ∧ st1.readings.length = c7State.readings.length + 2
      ∧ ∀ r ∈ st1.readings.drop c7State.readings.length, r.qualityFlag = 0 :=
  claim_C7 demoTzdb c7State c7File 7 (pys "America/New_York") {} none
    [(pys "Registration Number", pys "XYZ")] 2 2
    (by decide) (by decide) (by decide) (by decide) (by decide)

end HighzTempDb

namespace HighzTempDb

/-! ## Substring machinery for the label derivation (C8) -/

theorem isPrefixOf_iff (l1 l2 : List Char) :
    l1.isPrefixOf l2 = true ↔ ∃ t, l1 ++ t = l2 := by
  induction l1 generalizing l2 with
  | nil => simp [List.isPrefixOf]
  | cons a l ih =>
    cases l2 with
    | nil => simp [List.isPrefixOf]
    | cons b l2' =>
      simp only [List.isPrefixOf, Bool.and_eq_true, beq_iff_eq, ih, List.cons_append,
        List.cons.injEq]
      constructor
      · rintro ⟨rfl, t, rfl⟩
        exact ⟨t, rfl, rfl⟩
      · rintro ⟨t, rfl, rfl⟩
        exact ⟨rfl, t, rfl⟩

theorem firstIdxOfSub_some (sub : PyStr) (hsub : sub ≠ []) :
    ∀ (s : PyStr) (i : Nat), firstIdxOfSub s sub = some i →
      sub.isPrefixOf (s.drop i) = true
      ∧ ∀ j, j < i → sub.isPrefixOf (s.drop j) = false := by
  intro s
  induction s with
  | nil =>
    intro i h
    unfold firstIdxOfSub at h
    rw [if_neg (by simpa using hsub)] at h
    exact absurd h (by simp)
  | cons c cs ih =>
    intro i h
    unfold firstIdxOfSub at h
    by_cases hp : sub.isPrefixOf (c :: cs) = true
    · rw [if_pos hp] at h
      injection h with h
      subst h
      exact ⟨hp, fun j hj => absurd hj (by omega)⟩
    · rw [if_neg hp] at h
      cases hrec : firstIdxOfSub cs sub with
      | none => rw [hrec] at h; exact absurd h (by simp)
      | some k =>
        rw [hrec] at h
        have hik : i = k + 1 := by
          simpa using h.symm
        subst hik
        obtain ⟨hpre, hmin⟩ := ih k hrec
        refine ⟨by simpa [List.drop_succ_cons] using hpre, ?_⟩
        intro j hj
        cases j with
        | zero =>
          simp only [List.drop_zero]
          simp only [Bool.not_eq_true] at hp
          exact hp
        | succ j' =>
          rw [List.drop_succ_cons]
          exact hmin j' (by omega)

theorem firstIdxOfSub_none (sub : PyStr) (hsub : sub ≠ []) :
    ∀ (s : PyStr), firstIdxOfSub s sub = none →
      ∀ j, sub.isPrefixOf (s.drop j) = false := by
  intro s
  induction s with
  | nil =>
    intro _ j
    rw [List.drop_nil]
    cases sub with
    | nil => exact absurd rfl hsub
    | cons x xs => rfl
  | cons c cs ih =>
    intro h j
    unfold firstIdxOfSub at h
    by_cases hp : sub.isPrefixOf (c :: cs) = true
    · rw [if_pos hp] at h; exact absurd h (by simp)
    · rw [if_neg hp] at h
      cases j with
      | zero =>
        simp only [List.drop_zero]
        simp only [Bool.not_eq_true] at hp
        exact hp
      | succ j' =>
        rw [List.drop_succ_cons]
        cases hrec : firstIdxOfSub cs sub with
        | some k => rw [hrec] at h; exact absurd h (by simp)
        | none => exact ih hrec j'

theorem prefix_of_drop_take (s : PyStr) (i j : Nat) :
    ((s.take i).drop j) <+: s.drop j := by
  rw [List.drop_take]
  exact List.take_prefix _ _

theorem pyContainsSub_take_false (s sub : PyStr) (hsub : sub ≠ [])
    (h : pyContainsSub s sub = false) (i : Nat) :
    pyContainsSub (s.take i) sub = false := by
  unfold pyContainsSub at h ⊢
  cases hfi : firstIdxOfSub (s.take i) sub with
  | none => rfl
  | some j =>
    exfalso
    cases hf : firstIdxOfSub s sub with
    | some k => rw [hf] at h; simp at h
    | none =>
      have hnone := firstIdxOfSub_none sub hsub s hf
      obtain ⟨hpre, _⟩ := firstIdxOfSub_some sub hsub (s.take i) j hfi
      obtain ⟨t, ht⟩ := (isPrefixOf_iff _ _).mp hpre
      obtain ⟨t2, ht2⟩ := prefix_of_drop_take s i j
      have hps : sub.isPrefixOf (s.drop j) = true := by
        rw [isPrefixOf_iff]
        exact ⟨t ++ t2, by rw [← List.append_assoc, ht, ht2]⟩
      rw [hnone j] at hps
      exact absurd hps (by simp)

theorem pySplitHead_of_not_contains (s sub : PyStr)
    (h : pyContainsSub s sub = false) : pySplitHead s sub = s := by
  unfold pyContainsSub at h
  unfold pySplitHead
  cases hf : firstIdxOfSub s sub with
  | none => rfl
  | some i => rw [hf] at h; simp at h

theorem splitHead_decomp (s sub : PyStr) (hsub : sub ≠ [])
    (h : pyContainsSub s sub = true) :
    ∃ rest, s = pySplitHead s sub ++ sub ++ rest
      ∧ pyContainsSub (pySplitHead s sub) sub = false := by
  unfold pyContainsSub at h
  cases hf : firstIdxOfSub s sub with
  | none => rw [hf] at h; simp at h
  | some i =>
    obtain ⟨hpre, hmin⟩ := firstIdxOfSub_some sub hsub s i hf
    obtain ⟨t, ht⟩ := (isPrefixOf_iff _ _).mp hpre
    refine ⟨t, ?_, ?_⟩
    · unfold pySplitHead
      rw [hf]
      conv_lhs => rw [← List.take_append_drop i s]
      rw [List.append_assoc, ht]
    · unfold pySplitHead
      rw [hf]
      unfold pyContainsSub
      cases hfi : firstIdxOfSub (s.take i) sub with
      | none => rfl
      | some j =>
        exfalso
        obtain ⟨hpre2, _⟩ := firstIdxOfSub_some sub hsub (s.take i) j hfi
        obtain ⟨t2, ht2⟩ := (isPrefixOf_iff _ _).mp hpre2
        have hne : (s.take i).drop j ≠ [] := by
          intro hemp
          rw [hemp] at ht2
          cases sub with
          | nil => exact hsub rfl
          | cons x xs => simp at ht2
        have hj : j < (s.take i).length := by
          by_contra hge
          exact hne (List.drop_eq_nil_of_le (by omega))
        have hji : j < i := by
          have := List.length_take i s
          omega
        obtain ⟨t3, ht3⟩ := prefix_of_drop_take s i j
        have hps : sub.isPrefixOf (s.drop j) = true := by
          rw [isPrefixOf_iff]
          exact ⟨t2 ++ t3, by rw [← List.append_assoc, ht2, ht3]⟩
        rw [hmin j hji] at hps
        exact absurd hps (by simp)

/-- C8 counterexample: `TAG_IBUTTON_2024` contains the marker up to case, yet
no label is derived — the source matches only the two exact spellings. -/
theorem claim_C8_counterexample :
    pyContainsSub (pyLower (pys "TAG_IBUTTON_2024")) ibuttonMarkerLower = true
    ∧ deriveLabel (pys "TAG_IBUTTON_2024") = none := by decide

/-- C8 amended: matching is case-sensitive on the two exact spellings
`_iButton_` and `_ibutton_`.  With neither marker, no label; with a marker,
the label is the filename truncated at the first `_iButton_` and then at the
first `_ibutton_`; in particular when exactly one spelling occurs the label is
precisely the text preceding that marker's first occurrence. -/
theorem claim_C8 (filename : PyStr) :
    (pyContainsSub filename ibuttonMarkerUpper = false →
      pyContainsSub filename ibuttonMarkerLower = false →
      deriveLabel filename = none)
    ∧ ((pyContainsSub filename ibuttonMarkerUpper = true
        ∨ pyContainsSub filename ibuttonMarkerLower = true) →
      deriveLabel filename
        = some (pySplitHead (pySplitHead filename ibuttonMarkerUpper)
            ibuttonMarkerLower))
    ∧ (pyContainsSub filename ibuttonMarkerUpper = true →
      pyContainsSub filename ibuttonMarkerLower = false →
      ∃ rest, deriveLabel filename = some (pySplitHead filename ibuttonMarkerUpper)
        ∧ filename = pySplitHead filename ibuttonMarkerUpper
            ++ ibuttonMarkerUpper ++ rest
        ∧ pyContainsSub (pySplitHead filename ibuttonMarkerUpper)
            ibuttonMarkerUpper = false)
    ∧ (pyContainsSub filename ibuttonMarkerUpper = false →
      pyContainsSub filename ibuttonMarkerLower = true →
      ∃ rest, deriveLabel filename = some (pySplitHead filename ibuttonMarkerLower)
        ∧ filename = pySplitHead filename ibuttonMarkerLower
            ++ ibuttonMarkerLower ++ rest
        ∧ pyContainsSub (pySplitHead filename ibuttonMarkerLower)
            ibuttonMarkerLower = false) := by
  refine ⟨fun h1 h2 => ?_, fun h => ?_, fun h1 h2 => ?_, fun h1 h2 => ?_⟩
  · simp [deriveLabel, h1, h2]
  · rcases h with h | h <;> simp [deriveLabel, h]
  · obtain ⟨rest, hdec, hnc⟩ :=
      splitHead_decomp filename ibuttonMarkerUpper (by decide) h1
    have hlab : deriveLabel filename
        = some (pySplitHead (pySplitHead filename ibuttonMarkerUpper)
            ibuttonMarkerLower) := by
      simp [deriveLabel, h1]
    have h2' : pyContainsSub (pySplitHead filename ibuttonMarkerUpper)
        ibuttonMarkerLower = false := by
      unfold pySplitHead
      cases hf : firstIdxOfSub filename ibuttonMarkerUpper with
      | none => simpa using h2
      | some i =>
        simpa using pyContainsSub_take_false filename ibuttonMarkerLower (by decide) h2 i
    refine ⟨rest, ?_, hdec, hnc⟩
    rw [hlab, pySplitHead_of_not_contains _ _ h2']
  · obtain ⟨rest, hdec, hnc⟩ :=
      splitHead_decomp filename ibuttonMarkerLower (by decide) h2
    have hlab : deriveLabel filename
        = some (pySplitHead (pySplitHead filename ibuttonMarkerUpper)
            ibuttonMarkerLower) := by
      simp [deriveLabel, h2]
    refine ⟨rest, ?_, hdec, hnc⟩
    rw [hlab, pySplitHead_of_not_contains _ _ h1]

/-- Witness for the amended C8: `Antenna_iButton_Dec2025` yields the label
`Antenna` as the text before the marker, and a marker-free name yields none. -/
theorem claim_C8_witness :
    (∃ rest, deriveLabel (pys "Antenna_iButton_Dec2025")
        = some (pySplitHead (pys "Antenna_iButton_Dec2025") ibuttonMarkerUpper)
      ∧ pys "Antenna_iButton_Dec2025"
          = pySplitHead (pys "Antenna_iButton_Dec2025") ibuttonMarkerUpper
            ++ ibuttonMarkerUpper ++ rest
      ∧ pyContainsSub (pySplitHead (pys "Antenna_iButton_Dec2025")
          ibuttonMarkerUpper) ibuttonMarkerUpper = false)
    ∧ deriveLabel (pys "plain_file") = none :=
  ⟨(claim_C8 (pys "Antenna_iButton_Dec2025")).2.2.1 (by decide) (by decide),
   (claim_C8 (pys "plain_file")).1 (by decide) (by decide)⟩

end HighzTempDb
